import Mathlib

/-!
Shallow embedding of the velan-grocery-shop-backend service (src/server.js).

The service is an Express app over a SQLite database with four tables
(categories, products, orders, status) and a directory of uploaded image
files.  Every route handler is a single parameterized SQL statement; we
model the database as in-memory lists of rows and each handler as a pure
function from the store (plus the request data) to a response paired with
the successor store.

Modelling conventions:
- SQL NULL-able TEXT columns are `Option String`; a missing request-body
  field binds NULL, hence handler parameters that come from the body are
  `Option String` too.
- `AUTOINCREMENT` ids are modelled by per-table `next…Id` counters that
  only ever grow; `this.lastID` is the id just assigned.
- `CURRENT_TIMESTAMP` / `Date.now()` are modelled by an explicit `now : Nat`
  parameter to the handlers that read the clock.
- Route `:id` parameters are modelled already decoded as `Nat` (SQLite's
  INTEGER affinity converts the text parameter before comparing, and a
  non-numeric text matches no INTEGER id, i.e. zero rows).
- `res.json` without `res.status` responds HTTP 200, so each response
  record carries an `httpStatus` field.
-/

namespace VelanGrocery

/-- Row of the `categories` table: `id INTEGER PRIMARY KEY AUTOINCREMENT,
name TEXT UNIQUE, image TEXT`. -/
structure CategoryRow where
  id : Nat
  name : Option String
  image : Option String
  deriving Repr, DecidableEq

/-- Row of the `products` table: `id INTEGER PRIMARY KEY AUTOINCREMENT, name
TEXT, description TEXT, price INTEGER, image TEXT, category TEXT`.  The
`price` field is kept as the raw bound text value since no claim inspects
its numeric affinity. -/
structure ProductRow where
  id : Nat
  name : Option String
  description : Option String
  price : Option String
  image : Option String
  category : Option String
  deriving Repr, DecidableEq

/-- Row of the `orders` table: `id INTEGER PRIMARY KEY AUTOINCREMENT, items
TEXT, details TEXT, created_at TIMESTAMP DEFAULT CURRENT_TIMESTAMP`. -/
structure OrderRow where
  id : Nat
  items : String
  details : String
  created_at : Nat
  deriving Repr, DecidableEq

/-- Row of the `status` table: `key TEXT PRIMARY KEY, value TEXT`. -/
structure StatusRow where
  key : String
  value : String
  deriving Repr, DecidableEq

/-- The whole persistent store: the four tables, with lists kept in rowid
(insertion) order, plus the AUTOINCREMENT counters. -/
structure Store where
  categories : List CategoryRow
  nextCategoryId : Nat
  products : List ProductRow
  nextProductId : Nat
  orders : List OrderRow
  nextOrderId : Nat
  status : List StatusRow
  deriving Repr, DecidableEq

/-- The store right after `CREATE TABLE IF NOT EXISTS …` on a fresh
database file: all tables empty, AUTOINCREMENT counters at 1. -/
def emptyStore : Store :=
  { categories := [], nextCategoryId := 1
    products := [], nextProductId := 1
    orders := [], nextOrderId := 1
    status := [] }

/-! JSON values and `JSON.stringify`, used by the POST /orders handler.
`JSON.stringify` is a platform builtin (not repository code); we model it
concretely on a standard JSON value type — the claims only use that the
stored text is the serialization of the body field. -/

/-- A JSON value, as parsed from a request body by `express.json()`. -/
inductive JsonVal where
  | null : JsonVal
  | bool : Bool → JsonVal
  | num : Int → JsonVal
  | str : String → JsonVal
  | arr : List JsonVal → JsonVal
  | obj : List (String × JsonVal) → JsonVal
  deriving Repr

/-- Escape one character for a JSON string literal (quote and backslash;
other escapes are irrelevant to the claims). -/
def escapeJsonChar (c : Char) : String :=
  if c = '"' then "\\\"" else if c = '\\' then "\\\\" else String.singleton c

/-- Escape a string for inclusion in a JSON string literal. -/
def escapeJson (s : String) : String :=
  String.join (s.toList.map escapeJsonChar)

mutual

/-- Model of `JSON.stringify` on a JSON value. -/
def stringify : JsonVal → String
  | .null => "null"
  | .bool b => if b then "true" else "false"
  | .num n => toString n
  | .str s => "\"" ++ escapeJson s ++ "\""
  | .arr xs => "[" ++ stringifyArr xs ++ "]"
  | .obj fs => "\x7b" ++ stringifyObj fs ++ "\x7d"

/-- Comma-separated serialization of a JSON array's elements. -/
def stringifyArr : List JsonVal → String
  | [] => ""
  | [x] => stringify x
  | x :: y :: xs => stringify x ++ "," ++ stringifyArr (y :: xs)

/-- Comma-separated serialization of a JSON object's fields. -/
def stringifyObj : List (String × JsonVal) → String
  | [] => ""
  | [(k, v)] => "\"" ++ escapeJson k ++ "\":" ++ stringify v
  | (k, v) :: f :: fs =>
      "\"" ++ escapeJson k ++ "\":" ++ stringify v ++ "," ++ stringifyObj (f :: fs)

end

/-! File uploads (multer disk storage). -/

/-- An uploaded file as multer presents it; only the original client-side
filename matters to the handlers. -/
structure UploadedFile where
  originalname : String
  deriving Repr, DecidableEq

/-- Helper for `extname`: the suffix of the character list starting at its
last dot, if any. -/
def lastDotSuffix : List Char → Option (List Char)
  | [] => none
  | c :: rest =>
    match lastDotSuffix rest with
    | some suf => some suf
    | none => if c = '.' then some (c :: rest) else none

/-- Model of Node's `path.extname` on a bare filename: the substring from
the last dot to the end, empty when there is no dot or the only dot is the
leading character (dotfiles have no extension). -/
def extname (s : String) : String :=
  match s.toList with
  | [] => ""
  | _ :: rest =>
    match lastDotSuffix rest with
    | some suf => String.mk suf
    | none => ""

/-- The configured backend base URL (`process.env.BACKEND_URL` defaulting
to the Render deployment URL, src/server.js line 32). -/
def BACKEND_URL : String := "https://velan-grocery-shop-backend.onrender.com"

/-- Multer disk-storage filename: `Date.now() + path.extname(file.originalname)`
(src/server.js line 37). -/
def uploadFilename (now : Nat) (f : UploadedFile) : String :=
  toString now ++ extname f.originalname

/-- The `image` value computed by the POST handlers:
`req.file ? BACKEND_URL + "/uploads/" + req.file.filename : null`. -/
def imageUrl (now : Nat) (file : Option UploadedFile) : Option String :=
  file.map (fun f => BACKEND_URL ++ "/uploads/" ++ uploadFilename now f)

/-! Categories routes. -/

/-- Response of POST /categories: HTTP status, `success` flag, optional
`error` message, and the `id` and `image` fields present on success. -/
structure PostCategoryResp where
  httpStatus : Nat
  success : Bool
  error : Option String
  id : Option Nat
  image : Option (Option String)
  deriving Repr, DecidableEq

/-- The UNIQUE constraint on `categories.name`: an INSERT fails exactly
when the inserted name is non-NULL and some existing row already has that
name (SQLite UNIQUE admits any number of NULLs). -/
def categoriesUniqueViolated (rows : List CategoryRow) (name : Option String) : Bool :=
  match name with
  | none => false
  | some n => rows.any (fun r => r.name == some n)

/-- Handler of POST /categories (src/server.js lines 79-86): compute the
image URL, INSERT the row; on a constraint error answer
`{success:false, error}` with the default HTTP 200, otherwise
`{success:true, id, image}`. -/
def postCategory (st : Store) (name : Option String) (file : Option UploadedFile)
    (now : Nat) : PostCategoryResp × Store :=
  let image := imageUrl now file
  if categoriesUniqueViolated st.categories name then
    ({ httpStatus := 200, success := false
       error := some "UNIQUE constraint failed: categories.name"
       id := none, image := none }, st)
  else
    ({ httpStatus := 200, success := true, error := none
       id := some st.nextCategoryId, image := some image },
     { st with
        categories := st.categories ++ [⟨st.nextCategoryId, name, image⟩]
        nextCategoryId := st.nextCategoryId + 1 })

/-- Response of the four DELETE routes: HTTP status and `success` flag. -/
structure DeleteResp where
  httpStatus : Nat
  success : Bool
  deriving Repr, DecidableEq

/-- Handler of DELETE /categories/:id (src/server.js lines 88-93):
`DELETE FROM categories WHERE id=?`, then `{success:true}`. -/
def deleteCategoryById (st : Store) (i : Nat) : DeleteResp × Store :=
  ({ httpStatus := 200, success := true },
   { st with categories := st.categories.filter (fun r => r.id != i) })

/-- Handler of DELETE /categories/by-name/:name (src/server.js lines
95-100): `DELETE FROM categories WHERE name=?`, then `{success:true}`.
A NULL name never equals the text parameter. -/
def deleteCategoryByName (st : Store) (n : String) : DeleteResp × Store :=
  ({ httpStatus := 200, success := true },
   { st with categories := st.categories.filter (fun r => r.name != some n) })

/-! Products routes. -/

/-- JavaScript truthiness of `req.query.category`: an absent parameter is
`undefined` (falsy) and a present one is a string, falsy only when empty. -/
def jsTruthy : Option String → Bool
  | none => false
  | some s => s != ""

/-- Handler of GET /products (src/server.js lines 103-115): when the
`category` query parameter is truthy add `WHERE category = ?`, otherwise
select all rows. -/
def getProducts (st : Store) (category : Option String) : List ProductRow :=
  if jsTruthy category then
    st.products.filter (fun p => p.category == category)
  else
    st.products

/-- Response of POST /products. -/
structure PostProductResp where
  httpStatus : Nat
  success : Bool
  error : Option String
  productId : Option Nat
  image : Option (Option String)
  deriving Repr, DecidableEq

/-- Handler of POST /products (src/server.js lines 117-128): compute the
image URL and INSERT; the products table has no constraint that a
single-row INSERT can violate, so the handler answers
`{success:true, productId, image}`. -/
def postProduct (st : Store) (name description price category : Option String)
    (file : Option UploadedFile) (now : Nat) : PostProductResp × Store :=
  let image := imageUrl now file
  ({ httpStatus := 200, success := true, error := none
     productId := some st.nextProductId, image := some image },
   { st with
      products := st.products ++
        [⟨st.nextProductId, name, description, price, image, category⟩]
      nextProductId := st.nextProductId + 1 })

/-- Handler of DELETE /products/:id (src/server.js lines 130-135). -/
def deleteProductById (st : Store) (i : Nat) : DeleteResp × Store :=
  ({ httpStatus := 200, success := true },
   { st with products := st.products.filter (fun r => r.id != i) })

/-- Handler of DELETE /products/by-name/:name (src/server.js lines 137-142). -/
def deleteProductByName (st : Store) (n : String) : DeleteResp × Store :=
  ({ httpStatus := 200, success := true },
   { st with products := st.products.filter (fun r => r.name != some n) })

/-! Orders routes. -/

/-- The ORDER BY key of GET /orders: ascending `created_at`. -/
def orderLE (a b : OrderRow) : Bool :=
  a.created_at ≤ b.created_at

/-- Handler of GET /orders (src/server.js lines 145-150):
`SELECT * FROM orders ORDER BY created_at ASC`.  SQLite scans the table in
rowid order and its merge keeps that order among equal keys, so the scan
is modelled as a stable sort of the insertion-ordered list. -/
def getOrders (st : Store) : List OrderRow :=
  st.orders.mergeSort orderLE

/-- Response of POST /orders. -/
structure PostOrderResp where
  httpStatus : Nat
  success : Bool
  orderId : Nat
  deriving Repr, DecidableEq

/-- Handler of POST /orders (src/server.js lines 152-162): serialize
`items` and `details` with `JSON.stringify`, INSERT with the
`CURRENT_TIMESTAMP` default, answer `{success:true, orderId:this.lastID}`. -/
def postOrder (st : Store) (items details : JsonVal) (now : Nat) :
    PostOrderResp × Store :=
  ({ httpStatus := 200, success := true, orderId := st.nextOrderId },
   { st with
      orders := st.orders ++
        [⟨st.nextOrderId, stringify items, stringify details, now⟩]
      nextOrderId := st.nextOrderId + 1 })

/-! Leave-status routes. -/

/-- Handler of GET /status/leave (src/server.js lines 165-170):
`SELECT value FROM status WHERE key=?` with parameter "leave"; answer the
row's value when a row comes back, else the literal sentinel "none". -/
def getStatusLeave (st : Store) : String :=
  match st.status.find? (fun r => r.key == "leave") with
  | some row => row.value
  | none => "none"

/-- Response of POST /status/leave. -/
structure PostStatusResp where
  httpStatus : Nat
  success : Bool
  deriving Repr, DecidableEq

/-- The single upsert statement of POST /status/leave:
`INSERT INTO status (key, value) VALUES ('leave', ?) ON CONFLICT(key) DO
UPDATE SET value=?`.  When a row with the key exists the conflict clause
overwrites its value, otherwise a new row is inserted. -/
def upsertLeave (rows : List StatusRow) (v : String) : List StatusRow :=
  if rows.any (fun r => r.key == "leave") then
    rows.map (fun r => if r.key == "leave" then ⟨r.key, v⟩ else r)
  else
    rows ++ [⟨"leave", v⟩]

/-- Handler of POST /status/leave (src/server.js lines 172-183). -/
def postStatusLeave (st : Store) (v : String) : PostStatusResp × Store :=
  ({ httpStatus := 200, success := true },
   { st with status := upsertLeave st.status v })

/-- Number of rows of the status table whose key is "leave"; the PRIMARY
KEY on `key` keeps it at most 1 in every reachable database. -/
def leaveCount (rows : List StatusRow) : Nat :=
  (rows.filter (fun r => r.key == "leave")).length

/-- A sequence of POST /status/leave requests applied in order. -/
def postLeaveSeq (st : Store) (vs : List String) : Store :=
  vs.foldl (fun s v => (postStatusLeave s v).2) st

/-! Every operation the service exposes, as one step relation for the
temporal claims. -/

/-- One request to any route of the service, carrying its request data. -/
inductive Op where
  | getCategories
  | postCategory (name : Option String) (file : Option UploadedFile) (now : Nat)
  | deleteCategoryById (i : Nat)
  | deleteCategoryByName (n : String)
  | getProducts (category : Option String)
  | postProduct (name description price category : Option String)
      (file : Option UploadedFile) (now : Nat)
  | deleteProductById (i : Nat)
  | deleteProductByName (n : String)
  | getOrders
  | postOrder (items details : JsonVal) (now : Nat)
  | getStatusLeave
  | postStatusLeave (v : String)
  | healthCheck
  deriving Repr

/-- The store after handling one request: GET routes and the health check
read only; the others apply the corresponding handler. -/
def applyOp (st : Store) : Op → Store
  | .getCategories => st
  | .postCategory name file now => (postCategory st name file now).2
  | .deleteCategoryById i => (deleteCategoryById st i).2
  | .deleteCategoryByName n => (deleteCategoryByName st n).2
  | .getProducts _ => st
  | .postProduct name description price category file now =>
      (postProduct st name description price category file now).2
  | .deleteProductById i => (deleteProductById st i).2
  | .deleteProductByName n => (deleteProductByName st n).2
  | .getOrders => st
  | .postOrder items details now => (postOrder st items details now).2
  | .getStatusLeave => st
  | .postStatusLeave v => (postStatusLeave st v).2
  | .healthCheck => st

end VelanGrocery

namespace VelanGrocery

/-! Concrete store shared by the witness theorems: one category, two
products, one status row, no orders. -/

/-- A small concrete store for evaluating theorems with hypotheses. -/
def sampleStore : Store :=
  { categories := [⟨1, some "Dairy", none⟩], nextCategoryId := 2
    products := [⟨1, some "Milk", none, some "25", none, some "Dairy"⟩,
                 ⟨2, some "Soap", none, some "10", none, some "Care"⟩]
    nextProductId := 3
    orders := [], nextOrderId := 1
    status := [⟨"leave", "open"⟩] }

/-- A list of length at most one has at most one member. -/
theorem eq_of_mem_of_length_le_one {α : Type} {l : List α} {a b : α}
    (h : l.length ≤ 1) (ha : a ∈ l) (hb : b ∈ l) : a = b := by
  match l with
  | [] => cases ha
  | [x] =>
    simp only [List.mem_singleton] at ha hb
    rw [ha, hb]
  | x :: y :: xs =>
    simp only [List.length_cons] at h
    omega

/-- C1: for every store containing a category row with name N, a POST
/categories request with the same name N answers HTTP 200 (not 500) with
a body carrying success:false and an error message, and the whole store —
in particular the pre-existing row's id, name and image — is unchanged. -/
theorem postCategory_duplicate (st : Store) (n : String) (row : CategoryRow)
    (file : Option UploadedFile) (now : Nat)
    (hmem : row ∈ st.categories) (hname : row.name = some n) :
    (postCategory st (some n) file now).1.httpStatus = 200 ∧
    (postCategory st (some n) file now).1.success = false ∧
    (postCategory st (some n) file now).1.error.isSome = true ∧
    (postCategory st (some n) file now).2 = st := by
  have hviol : categoriesUniqueViolated st.categories (some n) = true := by
    simp only [categoriesUniqueViolated, List.any_eq_true]
    exact ⟨row, hmem, by simp [hname]⟩
  simp [postCategory, hviol]

/-- Witness for C1 at a concrete duplicate insert into `sampleStore`. -/
theorem postCategory_duplicate_witness :
    (⟨1, some "Dairy", none⟩ : CategoryRow) ∈ sampleStore.categories ∧
    ((postCategory sampleStore (some "Dairy") none 5).1.httpStatus = 200 ∧
     (postCategory sampleStore (some "Dairy") none 5).1.success = false ∧
     (postCategory sampleStore (some "Dairy") none 5).1.error.isSome = true ∧
     (postCategory sampleStore (some "Dairy") none 5).2 = sampleStore) :=
  ⟨by decide,
   postCategory_duplicate sampleStore "Dairy" ⟨1, some "Dairy", none⟩ none 5 (by decide) rfl⟩

/-- C4: GET /status/leave returns the stored value of the leave row when
one exists (the PRIMARY KEY invariant bounds the count by one), and the
literal sentinel "none", produced by the handler rather than read from the
table, when no leave row exists. -/
theorem getStatusLeave_spec (st : Store) (hinv : leaveCount st.status ≤ 1) :
    (∀ row ∈ st.status, row.key = "leave" → getStatusLeave st = row.value) ∧
    ((∀ row ∈ st.status, row.key ≠ "leave") → getStatusLeave st = "none") := by
  constructor
  · intro row hrow hkey
    have hfind : (st.status.find? (fun r => r.key == "leave")).isSome := by
      rw [List.find?_isSome]
      exact ⟨row, hrow, by simp [hkey]⟩
    obtain ⟨x, hx⟩ := Option.isSome_iff_exists.mp hfind
    have hxmem := List.mem_of_find?_eq_some hx
    have hxkey := List.find?_some hx
    have hxf : x ∈ st.status.filter (fun r => r.key == "leave") :=
      List.mem_filter.mpr ⟨hxmem, hxkey⟩
    have hrf : row ∈ st.status.filter (fun r => r.key == "leave") :=
      List.mem_filter.mpr ⟨hrow, by simp [hkey]⟩
    have hxr : x = row := eq_of_mem_of_length_le_one hinv hxf hrf
    simp [getStatusLeave, hx, hxr]
  · intro hall
    have hnone : st.status.find? (fun r => r.key == "leave") = none := by
      rw [List.find?_eq_none]
      intro x hxm
      simp [hall x hxm]
    simp [getStatusLeave, hnone]

/-- Witness for C4 on `sampleStore`, whose status table is the single row
with key "leave" and value "open". -/
theorem getStatusLeave_spec_witness :
    leaveCount sampleStore.status ≤ 1 ∧
    ((∀ row ∈ sampleStore.status, row.key = "leave" →
        getStatusLeave sampleStore = row.value) ∧
     ((∀ row ∈ sampleStore.status, row.key ≠ "leave") →
        getStatusLeave sampleStore = "none")) :=
  ⟨by decide, getStatusLeave_spec sampleStore (by decide)⟩

/-- C5: each of the four DELETE routes removes exactly the rows matching
its id or name parameter and answers HTTP 200 with success:true; the
response carries no existence information, so zero matched rows produce
the same success response. -/
theorem delete_routes_spec (st : Store) (i j : Nat) (n m : String) :
    ((deleteCategoryById st i).1.httpStatus = 200 ∧
     (deleteCategoryById st i).1.success = true ∧
     ∀ r : CategoryRow, r ∈ ((deleteCategoryById st i).2).categories ↔
        r ∈ st.categories ∧ r.id ≠ i) ∧
    ((deleteCategoryByName st n).1.httpStatus = 200 ∧
     (deleteCategoryByName st n).1.success = true ∧
     ∀ r : CategoryRow, r ∈ ((deleteCategoryByName st n).2).categories ↔
        r ∈ st.categories ∧ r.name ≠ some n) ∧
    ((deleteProductById st j).1.httpStatus = 200 ∧
     (deleteProductById st j).1.success = true ∧
     ∀ p : ProductRow, p ∈ ((deleteProductById st j).2).products ↔
        p ∈ st.products ∧ p.id ≠ j) ∧
    ((deleteProductByName st m).1.httpStatus = 200 ∧
     (deleteProductByName st m).1.success = true ∧
     ∀ p : ProductRow, p ∈ ((deleteProductByName st m).2).products ↔
        p ∈ st.products ∧ p.name ≠ some m) := by
  refine ⟨⟨rfl, rfl, ?_⟩, ⟨rfl, rfl, ?_⟩, ⟨rfl, rfl, ?_⟩, ⟨rfl, rfl, ?_⟩⟩
  · intro r; simp [deleteCategoryById, List.mem_filter]
  · intro r; simp [deleteCategoryByName, List.mem_filter]
  · intro p; simp [deleteProductById, List.mem_filter]
  · intro p; simp [deleteProductByName, List.mem_filter]

/-- C6: GET /products with a non-empty category parameter returns exactly
the product rows whose category equals that literal string (exact,
case-sensitive comparison — model equality of strings), and GET /products
without the parameter returns every product row. -/
theorem getProducts_category_filter (st : Store) (c : String) (hc : c ≠ "") :
    (∀ p : ProductRow, p ∈ getProducts st (some c) ↔
        p ∈ st.products ∧ p.category = some c) ∧
    getProducts st none = st.products := by
  constructor
  · intro p
    have ht : jsTruthy (some c) = true := by simp [jsTruthy, hc]
    simp [getProducts, ht, List.mem_filter]
  · simp [getProducts, jsTruthy]

/-- Witness for C6 filtering `sampleStore` by the category "Dairy". -/
theorem getProducts_category_filter_witness :
    "Dairy" ≠ "" ∧
    ((∀ p : ProductRow, p ∈ getProducts sampleStore (some "Dairy") ↔
        p ∈ sampleStore.products ∧ p.category = some "Dairy") ∧
     getProducts sampleStore none = sampleStore.products) :=
  ⟨by decide, getProducts_category_filter sampleStore "Dairy" (by decide)⟩

/-- C7: POST /orders appends exactly one order row holding the
serializations of items and details, leaves every pre-existing order row
in place, and answers success:true with orderId the id of the inserted
row. -/
theorem postOrder_spec (st : Store) (items details : JsonVal) (now : Nat) :
    (postOrder st items details now).1.httpStatus = 200 ∧
    (postOrder st items details now).1.success = true ∧
    (postOrder st items details now).1.orderId = st.nextOrderId ∧
    (postOrder st items details now).2.orders =
      st.orders ++ [⟨st.nextOrderId, stringify items, stringify details, now⟩] ∧
    ∀ row ∈ st.orders, row ∈ (postOrder st items details now).2.orders := by
  refine ⟨rfl, rfl, rfl, rfl, ?_⟩
  intro row h
  simp only [postOrder, List.mem_append]
  exact Or.inl h

/-- C8: when POST /products carries an uploaded file the inserted row and
the response both record the image as the base URL, "/uploads/", and the
generated filename, which is the current timestamp followed by the
original file's extension; with no file the stored image is NULL. -/
theorem postProduct_image_spec (st : Store)
    (name description price category : Option String)
    (f : UploadedFile) (now : Nat) :
    (postProduct st name description price category (some f) now).2.products =
      st.products ++ [⟨st.nextProductId, name, description, price,
        some (BACKEND_URL ++ "/uploads/" ++ (toString now ++ extname f.originalname)),
        category⟩] ∧
    (postProduct st name description price category (some f) now).1.image =
      some (some (BACKEND_URL ++ "/uploads/" ++ (toString now ++ extname f.originalname))) ∧
    (postProduct st name description price category none now).1.image = some none ∧
    (postProduct st name description price category none now).2.products =
      st.products ++ [⟨st.nextProductId, name, description, price, none, category⟩] :=
  ⟨rfl, rfl, rfl, rfl⟩

/-- C9: order rows are append-only: after any single exposed operation the
previous orders list is a prefix of the new one, so every order row
present before is present, unchanged and in place, and only POST /orders
ever extends the table. -/
theorem orders_append_only (st : Store) (op : Op) :
    st.orders <+: (applyOp st op).orders := by
  cases op with
  | postCategory name file now =>
    show st.orders <+: ((postCategory st name file now).2).orders
    have h : ((postCategory st name file now).2).orders = st.orders := by
      by_cases hv : categoriesUniqueViolated st.categories name = true
      · simp [postCategory, hv]
      · simp [postCategory, hv]
    rw [h]
  | postOrder items details now => exact List.prefix_append _ _
  | getCategories => exact List.prefix_rfl
  | deleteCategoryById i => exact List.prefix_rfl
  | deleteCategoryByName n => exact List.prefix_rfl
  | getProducts c => exact List.prefix_rfl
  | postProduct name description price category file now => exact List.prefix_rfl
  | deleteProductById i => exact List.prefix_rfl
  | deleteProductByName n => exact List.prefix_rfl
  | getOrders => exact List.prefix_rfl
  | getStatusLeave => exact List.prefix_rfl
  | postStatusLeave v => exact List.prefix_rfl
  | healthCheck => exact List.prefix_rfl

/-- C10: a present-but-empty category query parameter is falsy in the
handler's truthiness test, so GET /products skips the WHERE clause exactly
as when the parameter is absent and returns every product row. -/
theorem getProducts_empty_param (st : Store) :
    getProducts st (some "") = st.products ∧
    getProducts st (some "") = getProducts st none := by
  constructor <;> simp [getProducts, jsTruthy]

end VelanGrocery

namespace VelanGrocery

/-! Lemmas for the GET /orders sort key. -/

/-- The ORDER BY created_at key is transitive. -/
theorem orderLE_trans : ∀ a b c : OrderRow, orderLE a b → orderLE b c → orderLE a c := by
  intro a b c hab hbc
  simp only [orderLE, decide_eq_true_eq] at hab hbc ⊢
  omega

/-- The ORDER BY created_at key is total. -/
theorem orderLE_total : ∀ a b : OrderRow, orderLE a b || orderLE b a := by
  intro a b
  simp only [orderLE, Bool.or_eq_true, decide_eq_true_eq]
  omega

/-- Three successive POST /orders requests applied to a store. -/
def postOrder3 (st : Store) (aI aD bI bD cI cD : JsonVal) (tA tB tC : Nat) : Store :=
  (postOrder (postOrder (postOrder st aI aD tA).2 bI bD tB).2 cI cD tC).2

/-- C2: after three successful POST /orders in the order A, B, C (wall
clock non-decreasing across them), GET /orders returns all order rows
sorted ascending by created_at, and the three new rows appear in the
relative order [A, B, C], independent of their ids. -/
theorem getOrders_fifo (st : Store) (aI aD bI bD cI cD : JsonVal)
    (tA tB tC : Nat) (hAB : tA ≤ tB) (hBC : tB ≤ tC) :
    (getOrders (postOrder3 st aI aD bI bD cI cD tA tB tC)).Pairwise
      (fun x y => x.created_at ≤ y.created_at) ∧
    (getOrders (postOrder3 st aI aD bI bD cI cD tA tB tC)).Perm
      (postOrder3 st aI aD bI bD cI cD tA tB tC).orders ∧
    List.Sublist
      [⟨st.nextOrderId, stringify aI, stringify aD, tA⟩,
       ⟨st.nextOrderId + 1, stringify bI, stringify bD, tB⟩,
       ⟨st.nextOrderId + 2, stringify cI, stringify cD, tC⟩]
      (getOrders (postOrder3 st aI aD bI bD cI cD tA tB tC)) := by
  have horders : (postOrder3 st aI aD bI bD cI cD tA tB tC).orders =
      st.orders ++
      [⟨st.nextOrderId, stringify aI, stringify aD, tA⟩,
       ⟨st.nextOrderId + 1, stringify bI, stringify bD, tB⟩,
       ⟨st.nextOrderId + 2, stringify cI, stringify cD, tC⟩] := by
    simp [postOrder3, postOrder]
  refine ⟨?_, ?_, ?_⟩
  · have h := List.sorted_mergeSort orderLE_trans orderLE_total
      (postOrder3 st aI aD bI bD cI cD tA tB tC).orders
    exact h.imp (fun hab => by simpa [orderLE] using hab)
  · exact List.mergeSort_perm _ orderLE
  · show List.Sublist _ (List.mergeSort _ orderLE)
    apply List.sublist_mergeSort orderLE_trans orderLE_total
    · refine List.Pairwise.cons ?_ (List.Pairwise.cons ?_
        (List.Pairwise.cons ?_ List.Pairwise.nil))
      · intro a ha
        rcases List.mem_cons.mp ha with h1 | h1
        · rw [h1]; simpa [orderLE] using hAB
        · rcases List.mem_cons.mp h1 with h2 | h2
          · rw [h2]; simpa [orderLE] using le_trans hAB hBC
          · exact absurd h2 (List.not_mem_nil a)
      · intro a ha
        rcases List.mem_cons.mp ha with h1 | h1
        · rw [h1]; simpa [orderLE] using hBC
        · exact absurd h1 (List.not_mem_nil a)
      · intro a ha
        exact absurd ha (List.not_mem_nil a)
    · rw [horders]
      exact List.sublist_append_right _ _

/-- Witness for C2: three orders posted to the empty store at times 1, 2, 3. -/
theorem getOrders_fifo_witness :
    (1 : Nat) ≤ 2 ∧ (2 : Nat) ≤ 3 ∧
    ((getOrders (postOrder3 emptyStore .null .null .null .null .null .null 1 2 3)).Pairwise
       (fun x y => x.created_at ≤ y.created_at) ∧
     (getOrders (postOrder3 emptyStore .null .null .null .null .null .null 1 2 3)).Perm
       (postOrder3 emptyStore .null .null .null .null .null .null 1 2 3).orders ∧
     List.Sublist
       [⟨emptyStore.nextOrderId, stringify .null, stringify .null, 1⟩,
        ⟨emptyStore.nextOrderId + 1, stringify .null, stringify .null, 2⟩,
        ⟨emptyStore.nextOrderId + 2, stringify .null, stringify .null, 3⟩]
       (getOrders (postOrder3 emptyStore .null .null .null .null .null .null 1 2 3))) :=
  ⟨by decide, by decide,
   getOrders_fifo emptyStore .null .null .null .null .null .null 1 2 3
     (by decide) (by decide)⟩

/-! Lemmas for the leave-status upsert. -/

/-- The conflict-update map preserves every row's key, hence the number of
leave rows. -/
theorem leaveCount_map_overwrite (rows : List StatusRow) (v : String) :
    leaveCount (rows.map (fun r => if r.key == "leave" then ⟨r.key, v⟩ else r)) =
      leaveCount rows := by
  induction rows with
  | nil => rfl
  | cons r rs ih =>
    by_cases hk : r.key = "leave"
    · simp [leaveCount, List.filter_cons, hk] at ih ⊢
      omega
    · simp [leaveCount, List.filter_cons, hk] at ih ⊢
      omega

/-- One upsert keeps the leave-row count at most one. -/
theorem leaveCount_upsert_le_one (rows : List StatusRow) (v : String)
    (h : leaveCount rows ≤ 1) : leaveCount (upsertLeave rows v) ≤ 1 := by
  unfold upsertLeave
  by_cases hany : (rows.any (fun r => r.key == "leave")) = true
  · rw [if_pos hany, leaveCount_map_overwrite]
    exact h
  · rw [if_neg hany]
    have h0 : rows.filter (fun r => r.key == "leave") = [] := by
      rw [List.filter_eq_nil_iff]
      intro x hx
      have := List.any_eq_false.mp (Bool.not_eq_true _ ▸ hany) x hx
      simpa using this
    simp [leaveCount, List.filter_append, h0]

/-- After the conflict-update map, the first leave row carries the new
value. -/
theorem find?_map_overwrite (rows : List StatusRow) (v : String)
    (hany : (rows.any (fun r => r.key == "leave")) = true) :
    (rows.map (fun r => if r.key == "leave" then ⟨r.key, v⟩ else r)).find?
      (fun r => r.key == "leave") = some ⟨"leave", v⟩ := by
  induction rows with
  | nil => simp at hany
  | cons r rs ih =>
    by_cases h : (r.key == "leave") = true
    · have hk : r.key = "leave" := by simpa using h
      simp [h, hk]
    · have h' : (rs.any (fun r => r.key == "leave")) = true := by
        simpa [h] using hany
      simp only [List.map_cons, if_neg h]
      rw [List.find?_cons_of_neg _ (by simpa using h)]
      exact ih h'

/-- After one upsert, looking up the leave row finds the value just
posted. -/
theorem find?_upsertLeave (rows : List StatusRow) (v : String) :
    (upsertLeave rows v).find? (fun r => r.key == "leave") = some ⟨"leave", v⟩ := by
  unfold upsertLeave
  by_cases hany : (rows.any (fun r => r.key == "leave")) = true
  · rw [if_pos hany]
    exact find?_map_overwrite rows v hany
  · rw [if_neg hany]
    have hnone : rows.find? (fun r => r.key == "leave") = none := by
      rw [List.find?_eq_none]
      intro x hx
      have := List.any_eq_false.mp (Bool.not_eq_true _ ▸ hany) x hx
      simpa using this
    rw [List.find?_append, hnone]
    simp

/-- GET /status/leave right after a POST /status/leave answers the posted
value. -/
theorem getStatusLeave_post (st : Store) (v : String) :
    getStatusLeave ((postStatusLeave st v).2) = v := by
  simp [getStatusLeave, postStatusLeave, find?_upsertLeave]

/-- Splitting the last request off a sequence of POST /status/leave. -/
theorem postLeaveSeq_append_last (st : Store) (vs : List String) (v : String) :
    postLeaveSeq st (vs ++ [v]) = (postStatusLeave (postLeaveSeq st vs) v).2 := by
  simp [postLeaveSeq]

/-- A sequence of upserts keeps the leave-row count at most one. -/
theorem leaveCount_postLeaveSeq (st : Store) (vs : List String)
    (h : leaveCount st.status ≤ 1) :
    leaveCount (postLeaveSeq st vs).status ≤ 1 := by
  induction vs generalizing st with
  | nil => exact h
  | cons v vs ih =>
    simp only [postLeaveSeq, List.foldl_cons]
    exact ih ((postStatusLeave st v).2) (leaveCount_upsert_le_one _ _ h)

/-- C3: POST /status/leave is the single-statement upsert: with no leave
row present it inserts one with the posted value, with one present it
overwrites that row's value; after any sequence of posts (on a table
satisfying the PRIMARY KEY invariant) at most one leave row exists, and
GET /status/leave returns the last posted value. -/
theorem postStatusLeave_upsert_spec (st : Store) (v w : String) (vs : List String)
    (hinv : leaveCount st.status ≤ 1) :
    ((st.status.any (fun r => r.key == "leave")) = false →
      ((postStatusLeave st v).2).status = st.status ++ [⟨"leave", v⟩]) ∧
    ((st.status.any (fun r => r.key == "leave")) = true →
      ((postStatusLeave st v).2).status =
        st.status.map (fun r => if r.key == "leave" then ⟨r.key, v⟩ else r)) ∧
    (postStatusLeave st v).1.httpStatus = 200 ∧
    (postStatusLeave st v).1.success = true ∧
    leaveCount ((postLeaveSeq st (vs ++ [w])).status) ≤ 1 ∧
    getStatusLeave (postLeaveSeq st (vs ++ [w])) = w := by
  refine ⟨?_, ?_, rfl, rfl, ?_, ?_⟩
  · intro h
    simp [postStatusLeave, upsertLeave, h]
  · intro h
    simp [postStatusLeave, upsertLeave, h]
  · exact leaveCount_postLeaveSeq st (vs ++ [w]) hinv
  · rw [postLeaveSeq_append_last]
    exact getStatusLeave_post _ _

/-- Witness for C3 on `sampleStore`, posting "off" then "on leave". -/
theorem postStatusLeave_upsert_spec_witness :
    leaveCount sampleStore.status ≤ 1 ∧
    (((sampleStore.status.any (fun r => r.key == "leave")) = false →
        ((postStatusLeave sampleStore "x").2).status =
          sampleStore.status ++ [⟨"leave", "x"⟩]) ∧
     ((sampleStore.status.any (fun r => r.key == "leave")) = true →
        ((postStatusLeave sampleStore "x").2).status =
          sampleStore.status.map (fun r => if r.key == "leave" then ⟨r.key, "x"⟩ else r)) ∧
     (postStatusLeave sampleStore "x").1.httpStatus = 200 ∧
     (postStatusLeave sampleStore "x").1.success = true ∧
     leaveCount ((postLeaveSeq sampleStore (["off"] ++ ["on leave"])).status) ≤ 1 ∧
     getStatusLeave (postLeaveSeq sampleStore (["off"] ++ ["on leave"])) = "on leave") :=
  ⟨by decide, postStatusLeave_upsert_spec sampleStore "x" "on leave" ["off"] (by decide)⟩

end VelanGrocery
